import Mathlib

/-!
Verification of the FeynmanMath client persistence and session-orchestration
layer: a shallow embedding of the credential store, mistake-archive store,
session-continuity store, navigation handlers and the progression calculator,
translated from the TypeScript sources (authService in
src/services/geminiService.ts, src/App.tsx, src/components/ChatInterface.tsx,
src/components/AchievementModal.tsx, and the shared types of
src/unnamed/part_000).

Asynchronous SHA-256 hashing is embedded as an explicit pure function
parameter (the code only ever compares digests for exact equality), wall-clock
reads become an explicit `now : Nat` parameter, and the single random draw of
the topic selector becomes an explicit `Fin (TOPICS.length - 1)` parameter.
localStorage becomes an explicit `Store` record passed through the
operations.
-/

namespace FM

/-! ## Data model (src/unnamed/part_000: types.ts) -/

/-- Sender of one chat turn: the enum Sender with values user / model. -/
inductive Sender where
  | user
  | ai
deriving DecidableEq, Repr

/-- Attachment: typed payload carried by a message. -/
structure Attachment where
  type : String
  mimeType : String
  data : String
  name : String
  isText : Option Bool
deriving DecidableEq, Repr

/-- Message: one turn in a conversation. -/
structure Message where
  id : String
  sender : Sender
  text : String
  image : Option String
  attachment : Option Attachment
deriving DecidableEq, Repr

/-- Difficulty of a Problem. -/
inductive Difficulty where
  | easy
  | medium
  | hard
deriving DecidableEq, Repr

/-- Problem: a tutoring exercise instance. -/
structure Problem where
  id : String
  topic : String
  content : String
  source : Option String
  feynmanExplanation : Option String
  standardSolution : Option String
  difficulty : Difficulty
  timestamp : Option Nat
  chatHistory : Option (List Message)
deriving DecidableEq, Repr

/-- UserRole: student or coach. -/
inductive UserRole where
  | student
  | coach
deriving DecidableEq, Repr

/-- User: identity and credential record. `lastLogin` and `loginCount` are
optional fields, absent until first written. -/
structure User where
  id : String
  username : String
  passwordHash : String
  name : String
  role : UserRole
  isFirstLogin : Bool
  lastLogin : Option Nat
  loginCount : Option Nat
deriving DecidableEq, Repr

/-- UserData: one archive of mistakes per user. -/
structure UserData where
  userId : String
  mistakes : List Problem
deriving DecidableEq, Repr

/-- TOPICS: the fixed 8-entry topic catalog; the last entry is the
random-choice entry. -/
def TOPICS : List String :=
  ["极限与连续性",
   "导数及其应用",
   "积分及其应用",
   "微分方程",
   "线性代数 (矩阵/行列式)",
   "解析几何",
   "级数与数列",
   "随机挑战"]

/-- The literal label of the random-choice topic entry. -/
def randomTopicLabel : String := "随机挑战"

/-! ## The key-value store (localStorage keys feynman_users, feynman_data,
feynman_current_user, and the feynman_last_session_ prefix family), embedded
as one record. -/

/-- Store: the persisted state. `lastSessions` is the family of per-user
last-session keys as an association list. -/
structure Store where
  users : List User
  currentUser : Option User
  data : List UserData
  lastSessions : List (String × Problem)
deriving DecidableEq, Repr

/-- Replace the first element satisfying `p` by `v`; leave the list unchanged
when no element matches. Embeds the findIndex-then-assign idiom
`users[index] = updatedUser` of the source. -/
def replaceFirst {α : Type} (p : α → Bool) (v : α) : List α → List α
  | [] => []
  | a :: l => if p a then v :: l else a :: replaceFirst p v l

/-! ## Credential store (src/services/geminiService.ts, authService part) -/

/-- Result of a successful login: the new store, the updated user record, and
the pre-update lastLogin captured for display. -/
structure LoginResult where
  store : Store
  user : User
  previousLogin : Option Nat
deriving DecidableEq, Repr

/-- The record update a successful login performs on the found user
(lines 345-349: lastLogin := now, loginCount := (loginCount or 0) + 1). -/
def loginUpdate (now : Nat) (u : User) : User :=
  { u with lastLogin := some now, loginCount := some (u.loginCount.getD 0 + 1) }

/-- login (geminiService.ts authService lines 331-359). Finds the first user
with the given username, checks the password digest by exact match, updates
lastLogin / loginCount, persists the roster, and establishes the updated
record as the current session identity. -/
def login (hash : String → String) (now : Nat) (username password : String)
    (s : Store) : Except String LoginResult :=
  match s.users.find? (fun u => u.username == username) with
  | none => .error "用户不存在"
  | some user =>
    let pHash := hash password
    if user.passwordHash != pHash then .error "密码错误"
    else
      let updatedUser := loginUpdate now user
      let users := replaceFirst (fun u => u.username == username) updatedUser s.users
      .ok { store := { s with users := users, currentUser := some updatedUser },
            user := updatedUser,
            previousLogin := user.lastLogin }

/-- logout (lines 361-364): clears the session identity only. -/
def logout (s : Store) : Store :=
  { s with currentUser := none }

/-- getCurrentUser (lines 366-369): reads the session identity. -/
def getCurrentUser (s : Store) : Option User :=
  s.currentUser

/-- The record update of updatePassword: new digest, isFirstLogin cleared. -/
def pwUpdate (hash : String → String) (newPassword : String) (u : User) : User :=
  { u with passwordHash := hash newPassword, isFirstLogin := false }

/-- updatePassword (lines 371-388). Finds the user by id, recomputes the
digest, clears isFirstLogin, persists, and then sets the session key to the
updated record (the source does this unconditionally, with no check that the
session referred to that user). -/
def updatePassword (hash : String → String) (userId newPassword : String)
    (s : Store) : Except String (Store × User) :=
  match s.users.find? (fun u => u.id == userId) with
  | none => .error "User not found"
  | some user =>
    let updated := pwUpdate hash newPassword user
    let users := replaceFirst (fun u => u.id == userId) updated s.users
    .ok ({ s with users := users, currentUser := some updated }, updated)

/-- The record update of resetUserPasswordToUsername: digest of the username,
isFirstLogin forced back to true. -/
def resetUpdate (hash : String → String) (u : User) : User :=
  { u with passwordHash := hash u.username, isFirstLogin := true }

/-- resetUserPasswordToUsername (lines 394-406). Finds the user by id, sets
the password digest to the digest of the username and forces isFirstLogin;
only the roster is written. -/
def resetUserPasswordToUsername (hash : String → String) (userId : String)
    (s : Store) : Except String Store :=
  match s.users.find? (fun u => u.id == userId) with
  | none => .error "User not found"
  | some user =>
    .ok { s with users := replaceFirst (fun u => u.id == userId)
                            (resetUpdate hash user) s.users }

/-- One raw row of a batch registration. -/
structure RawEntry where
  name : String
  username : String
deriving DecidableEq, Repr

/-- The user record synthesized for one batch entry (lines 412-419): fresh id,
password digest equal to the digest of the username, role student,
isFirstLogin true. -/
def mkBatchUser (hash : String → String) (uid : String) (e : RawEntry) : User :=
  { id := uid, username := e.username, name := e.name,
    passwordHash := hash e.username, role := .student, isFirstLogin := true,
    lastLogin := none, loginCount := none }

/-- The list of synthesized records for a batch, ids drawn from `mkId` at
successive indices (the source draws them from Date.now and Math.random). -/
def batchUsers (hash : String → String) (mkId : Nat → String) :
    Nat → List RawEntry → List User
  | _, [] => []
  | i, e :: es => mkBatchUser hash (mkId i) e :: batchUsers hash mkId (i + 1) es

/-- registerBatchUsers (lines 408-428). Synthesizes a record per entry, keeps
those whose username does not collide with the roster snapshot taken at call
start, appends them, and returns how many were appended. Note the filter
compares each new record against `currentUsers` only, never against the other
new records of the same batch. -/
def registerBatchUsers (hash : String → String) (mkId : Nat → String)
    (entries : List RawEntry) (s : Store) : Store × Nat :=
  let currentUsers := s.users
  let newUsers := batchUsers hash mkId 0 entries
  let uniqueNewUsers :=
    newUsers.filter (fun nu => !(currentUsers.any (fun cu => cu.username == nu.username)))
  ({ s with users := currentUsers ++ uniqueNewUsers }, uniqueNewUsers.length)

/-- A sequence of registerBatch calls, applied in order. -/
def runRegisterBatches (hash : String → String) (mkId : Nat → String) :
    List (List RawEntry) → Store → Store
  | [], s => s
  | b :: bs, s => runRegisterBatches hash mkId bs (registerBatchUsers hash mkId b s).1

/-- getStudents (lines 430-432). -/
def getStudents (s : Store) : List User :=
  s.users.filter (fun u => u.role == .student)

/-! ## Mistake-archive and session-continuity stores (lines 436-470) -/

/-- getUserMistakes (lines 436-440): empty when no archive exists. -/
def getUserMistakes (userId : String) (s : Store) : List Problem :=
  match s.data.find? (fun d => d.userId == userId) with
  | some d => d.mistakes
  | none => []

/-- saveUserMistakes (lines 442-453): full-replace write of one archive. -/
def saveUserMistakes (userId : String) (mistakes : List Problem) (s : Store) : Store :=
  if s.data.any (fun d => d.userId == userId) then
    { s with data := replaceFirst (fun d => d.userId == userId)
                       { userId := userId, mistakes := mistakes } s.data }
  else
    { s with data := s.data ++ [{ userId := userId, mistakes := mistakes }] }

/-- saveLastSession (lines 457-464): a concrete problem overwrites the
per-user key, absence deletes it. -/
def saveLastSession (userId : String) (p : Option Problem) (s : Store) : Store :=
  match p with
  | some prob =>
    { s with lastSessions :=
        (userId, prob) :: s.lastSessions.filter (fun e => !(e.1 == userId)) }
  | none =>
    { s with lastSessions := s.lastSessions.filter (fun e => !(e.1 == userId)) }

/-- getLastSession (lines 466-470). -/
def getLastSession (userId : String) (s : Store) : Option Problem :=
  (s.lastSessions.find? (fun e => e.1 == userId)).map (fun e => e.2)

/-! ## Navigation state machine (src/App.tsx) -/

/-- AppState: one variant per named view state. -/
inductive AppState where
  | login
  | changePassword
  | topicSelection
  | problemActive
  | mistakeNotebook
  | coachDashboard
  | coachAnalytics
deriving DecidableEq, Repr

/-- AppModel: the in-memory React state of the App component that the
navigation handlers read and write. -/
structure AppModel where
  currentUser : Option User
  appState : AppState
  currentProblem : Option Problem
  activeMistakes : List Problem
  showAchievements : Bool
  previousLoginTime : Option Nat
deriving DecidableEq, Repr

/-- The initial App component state at process start (App.tsx lines 16-26). -/
def initialApp : AppModel :=
  { currentUser := none, appState := .login, currentProblem := none,
    activeMistakes := [], showAchievements := false, previousLoginTime := none }

/-- The guard `currentUser?.role === 'student'` of the source. -/
def roleIsStudent (app : AppModel) : Bool :=
  match app.currentUser with
  | some u => u.role == .student
  | none => false

/-- handleLoginSuccess (App.tsx lines 95-125): records the user and the
previousLogin value, dispatches to ChangePassword on isFirstLogin, to the
coach dashboard for coaches, and otherwise loads the archive, raises the
achievement overlay exactly when a previousLogin value was supplied, and
resumes the stored last session when one exists. -/
def handleLoginSuccess (user : User) (prevLoginTime : Option Nat) (s : Store)
    (app : AppModel) : AppModel :=
  let app1 := { app with currentUser := some user, previousLoginTime := prevLoginTime }
  if user.isFirstLogin then
    { app1 with appState := .changePassword }
  else if user.role == .coach then
    { app1 with appState := .coachDashboard }
  else
    let app2 := { app1 with activeMistakes := getUserMistakes user.id s }
    let app3 := if prevLoginTime.isSome then { app2 with showAchievements := true } else app2
    match getLastSession user.id s with
    | some p => { app3 with currentProblem := some p, appState := .problemActive }
    | none => { app3 with appState := .topicSelection }

/-- handleLogout (App.tsx lines 127-135). -/
def handleLogout (s : Store) (app : AppModel) : Store × AppModel :=
  (logout s,
   { app with currentUser := none, appState := .login, activeMistakes := [],
              currentProblem := none, showAchievements := false })

/-- toggleMistake (App.tsx lines 162-174): for a student with an active
problem, removes the archive entry with the same id when present, otherwise
prepends a timestamped copy. -/
def toggleMistake (now : Nat) (app : AppModel) : AppModel :=
  match app.currentProblem with
  | none => app
  | some p =>
    if roleIsStudent app then
      if app.activeMistakes.any (fun m => m.id == p.id) then
        { app with activeMistakes := app.activeMistakes.filter (fun m => !(m.id == p.id)) }
      else
        { app with activeMistakes := { p with timestamp := some now } :: app.activeMistakes }
    else app

/-- saveCurrentProblem (App.tsx lines 177-183): archives the active problem
for a student unless an entry with the same id is already present. -/
def saveCurrentProblem (now : Nat) (app : AppModel) : AppModel :=
  match app.currentProblem with
  | none => app
  | some p =>
    if roleIsStudent app then
      if app.activeMistakes.any (fun m => m.id == p.id) then app
      else
        { app with activeMistakes := { p with timestamp := some now } :: app.activeMistakes }
    else app

/-- handleChatUpdate (App.tsx lines 185-196): pushes the live chat history
into the active problem and, when an archive entry with the same id exists,
into that entry too. -/
def handleChatUpdate (messages : List Message) (app : AppModel) : AppModel :=
  match app.currentProblem with
  | none => app
  | some p =>
    let updatedProblem := { p with chatHistory := some messages }
    let app1 := { app with currentProblem := some updatedProblem }
    if app1.activeMistakes.any (fun m => m.id == updatedProblem.id) then
      { app1 with activeMistakes :=
          app1.activeMistakes.map (fun m => if m.id == updatedProblem.id then updatedProblem else m) }
    else app1

/-- The onDelete handler of the mistake notebook view (App.tsx lines 326-331):
drops every archive entry with the given id. -/
def deleteMistake (pid : String) (app : AppModel) : AppModel :=
  { app with activeMistakes := app.activeMistakes.filter (fun m => !(m.id == pid)) }

/-! ## Problem generation and topic selection -/

/-- The structured output of one successful provider call
(geminiService.ts lines 29-50). -/
structure ProviderOutput where
  problemStatement : String
  source : String
  feynmanExplanation : String
  standardSolution : String
deriving DecidableEq, Repr

/-- generateMathProblem (geminiService.ts lines 19-78): on provider success
the parsed fields are packed into a Problem carrying the requested topic; on
provider failure a degraded Problem carrying an error message as content is
returned, still with the requested topic. The provider outcome is the
`provider` parameter; `now` stands for Date.now. -/
def generateMathProblem (now : Nat) (provider : Option ProviderOutput)
    (topic : String) : Problem :=
  match provider with
  | some out =>
    { id := toString now, topic := topic, content := out.problemStatement,
      source := some out.source,
      feynmanExplanation := some out.feynmanExplanation,
      standardSolution := some out.standardSolution,
      difficulty := .medium, timestamp := none, chatHistory := none }
  | none =>
    { id := toString now, topic := topic,
      content := "生成题目时遇到问题，请重试。请确认云托管环境变量 VITE_API_KEY 已配置。",
      source := none, feynmanExplanation := none, standardSolution := none,
      difficulty := .medium, timestamp := none, chatHistory := none }

/-- The topic resolution of handleTopicSelect (App.tsx lines 148-150): the
random-choice label resolves to TOPICS[floor(random * (TOPICS.length - 1))],
any other topic resolves to itself. The draw floor(random * (TOPICS.length - 1))
is the parameter `r`. -/
def resolveTopic (r : Fin (TOPICS.length - 1)) (topic : String) : String :=
  if topic == randomTopicLabel then TOPICS.getD r.val "" else topic

/-- handleTopicSelect (App.tsx lines 145-160): resolves the topic, generates
the problem for the resolved topic, installs it as the current problem and
enters ProblemActive. -/
def handleTopicSelect (r : Fin (TOPICS.length - 1)) (now : Nat)
    (provider : Option ProviderOutput) (topic : String) (app : AppModel) : AppModel :=
  let selectedTopic := resolveTopic r topic
  let problem := generateMathProblem now provider selectedTopic
  { app with currentProblem := some problem, appState := .problemActive }

/-! ## The auto-save trigger of the chat input
(src/components/ChatInterface.tsx lines 92-101) -/

/-- The fixed giving-up keyword list of handleSubmit (line 97). -/
def givingUpKeywords : List String :=
  ["不会", "太难", "不懂", "放弃", "没思路", "很难", "不知道", "Help"]

/-- Does the character list `l` start with the character list `pat`. -/
def startsWithL : List Char → List Char → Bool
  | _, [] => true
  | [], _ :: _ => false
  | a :: l, b :: pat => a == b && startsWithL l pat

/-- Does the character list `l` contain `pat` as a contiguous run
(the substring test behind String.prototype.includes). -/
def containsSub : List Char → List Char → Bool
  | [], pat => pat.isEmpty
  | a :: l, pat => startsWithL (a :: l) pat || containsSub l pat

/-- ASCII-lowering of a string, the effect toLowerCase has on the fixed
keyword list (whose only cased characters are ASCII). -/
def toLowerStr (str : String) : String :=
  String.mk (str.data.map Char.toLower)

/-- The keyword test of line 98:
keywords.some(k => inputText.toLowerCase().includes(k.toLowerCase())). -/
def keywordHit (inputText : String) : Bool :=
  givingUpKeywords.any (fun k => containsSub (toLowerStr inputText).data (toLowerStr k).data)

/-- The trigger condition of lines 96-100: the auto-save callback runs only
when the submission carries no attachment and the text hits a keyword. -/
def autoSaveTriggered (inputText : String) (hasAttachment : Bool) : Bool :=
  !hasAttachment && keywordHit inputText

/-- The emptiness test `!inputText.trim()` of line 94: true exactly when the
text is all whitespace. -/
def blankInput (inputText : String) : Bool :=
  inputText.data.all Char.isWhitespace

/-- The mistake-archive effect of ChatInterface.handleSubmit (lines 92-101)
as seen by the App state: the guard of line 94 drops empty or in-flight
submissions, then the auto-save trigger may archive the current problem via
saveCurrentProblem (the onAutoSave callback, App.tsx lines 177-183). The
message-list construction and the provider call that follow touch neither the
archive nor the navigation state. -/
def handleSubmitMistakes (isProcessing : Bool) (now : Nat) (inputText : String)
    (hasAttachment : Bool) (app : AppModel) : AppModel :=
  if (blankInput inputText && !hasAttachment) || isProcessing then app
  else if autoSaveTriggered inputText hasAttachment then saveCurrentProblem now app
  else app

/-! ## Progression calculator (src/components/AchievementModal.tsx) -/

/-- Badge: a named progression marker with a predicate over the saved-mistake
count, the login count and the distinct-topic count. -/
structure Badge where
  id : String
  name : String
  icon : String
  description : String
  condition : Nat → Nat → Nat → Bool

/-- BADGES (AchievementModal.tsx lines 20-56): the fixed ordered catalog. -/
def BADGES : List Badge :=
  [{ id := "newbie", name := "初出茅庐", icon := "🌱",
     description := "成功注册并首次登录系统",
     condition := fun _ l _ => decide (1 ≤ l) },
   { id := "explorer", name := "探索者", icon := "🧭",
     description := "尝试了3个不同的数学主题",
     condition := fun _ _ t => decide (3 ≤ t) },
   { id := "scholar", name := "勤奋学员", icon := "📚",
     description := "累计练习超过 5 道题目",
     condition := fun c _ _ => decide (5 ≤ c) },
   { id := "master", name := "解题大师", icon := "🏆",
     description := "累计练习超过 20 道题目",
     condition := fun c _ _ => decide (20 ≤ c) },
   { id := "legend", name := "费曼传奇", icon := "👑",
     description := "累计练习超过 50 道题目",
     condition := fun c _ _ => decide (50 ≤ c) }]

/-- unlockedBadges (AchievementModal.tsx line 89): the catalog filtered by
the predicates at the current (count, loginCount, topics). -/
def unlockedBadges (c l t : Nat) : List Badge :=
  BADGES.filter (fun b => b.condition c l t)

/-- The invariant of the mistake archive: at most one entry per Problem id. -/
abbrev mistakeIdsNodup (l : List Problem) : Prop :=
  (l.map Problem.id).Nodup

/-! ## Concrete fixtures used by counterexamples and witnesses -/

/-- A concrete stand-in digest function for evaluation. -/
def hid : String → String := fun str => str

/-- The empty store. -/
def emptyStore : Store :=
  { users := [], currentUser := none, data := [], lastSessions := [] }

/-- A registered student used by the login witness. -/
def uC2 : User :=
  { id := "u2", username := "w", passwordHash := "pw", name := "W",
    role := .student, isFirstLogin := false, lastLogin := some 3, loginCount := some 2 }

/-- A one-user store holding [uC2]. -/
def sC2 : Store := { users := [uC2], currentUser := none, data := [], lastSessions := [] }

/-- A user whose session is active while another user changes a password. -/
def uA3 : User :=
  { id := "a1", username := "alice", passwordHash := "pa", name := "A",
    role := .student, isFirstLogin := false, lastLogin := none, loginCount := none }

/-- The other user, the one whose password gets changed. -/
def uB3 : User :=
  { id := "b1", username := "bob", passwordHash := "pb", name := "B",
    role := .student, isFirstLogin := false, lastLogin := none, loginCount := none }

/-- A store whose session identity refers to uA3. -/
def sC3 : Store := { users := [uA3, uB3], currentUser := some uA3, data := [], lastSessions := [] }

/-- A concrete active problem. -/
def exProblem : Problem :=
  { id := "p1", topic := "导数及其应用", content := "求导", source := none,
    feynmanExplanation := none, standardSolution := none,
    difficulty := .medium, timestamp := none, chatHistory := none }

/-- A concrete logged-in student. -/
def exStudent : User :=
  { id := "s1", username := "stu", passwordHash := "stu", name := "S",
    role := .student, isFirstLogin := false, lastLogin := some 1, loginCount := some 1 }

/-- A student mid-problem with an empty archive. -/
def exApp : AppModel :=
  { currentUser := some exStudent, appState := .problemActive,
    currentProblem := some exProblem, activeMistakes := [],
    showAchievements := false, previousLoginTime := none }

/-- A concrete coach with an earlier login on record. -/
def exCoach : User :=
  { id := "c1", username := "Coach", passwordHash := "admin123", name := "教练",
    role := .coach, isFirstLogin := false, lastLogin := some 1, loginCount := some 2 }

/-- The student of the reset-then-login witness. -/
def uC9 : User :=
  { id := "u9", username := "stud9", passwordHash := "oldhash", name := "S9",
    role := .student, isFirstLogin := false, lastLogin := some 1, loginCount := some 1 }

/-- A one-user store holding [uC9]. -/
def sC9 : Store := { users := [uC9], currentUser := none, data := [], lastSessions := [] }

/-- The currently logged-in user of the reset frame witness. -/
def uC10 : User :=
  { id := "c10", username := "stud10", passwordHash := "h10", name := "S10",
    role := .student, isFirstLogin := false, lastLogin := some 2, loginCount := some 3 }

/-- A store in which uC10 is both on the roster and the session identity. -/
def sC10 : Store := { users := [uC10], currentUser := some uC10, data := [], lastSessions := [] }

/-- The store that resetting the password of uC10 in sC10 produces. -/
def sC10res : Store :=
  { sC10 with users := [{ uC10 with passwordHash := "stud10", isFirstLogin := true }] }

/-! ## Helper lemmas -/

/-- Finding again after replaceFirst with the same predicate yields the
replacement. -/
theorem find_replaceFirst_self {α : Type} (q : α → Bool) (v : α) (hq : q v = true) :
    ∀ (l : List α) (u : α), l.find? q = some u →
      (replaceFirst q v l).find? q = some v := by
  intro l
  induction l with
  | nil => intro u h; simp [List.find?] at h
  | cons a l ih =>
    intro u h
    by_cases ha : q a = true
    · simp [replaceFirst, ha, List.find?_cons_of_pos, hq]
    · have ha' : q a = false := by simpa using ha
      rw [List.find?_cons_of_neg _ ha] at h
      simp [replaceFirst, ha', List.find?_cons_of_neg, ih u h, ha]

/-- When the first p-match and the first q-match of a list are the same
element u, replacing the first p-match by a q-positive v makes v the first
q-match. -/
theorem find_replaceFirst_cross {α : Type} (p q : α → Bool) (u v : α)
    (hqv : q v = true) (hpu : p u = true) :
    ∀ l : List α, l.find? p = some u → l.find? q = some u →
      (replaceFirst p v l).find? q = some v := by
  intro l
  induction l with
  | nil => intro h1 _; simp [List.find?] at h1
  | cons a l ih =>
    intro h1 h2
    by_cases hpa : p a = true
    · have hau : a = u := by
        rw [List.find?_cons_of_pos _ hpa] at h1
        exact Option.some.inj h1
      simp [replaceFirst, hpa, List.find?_cons_of_pos, hqv]
    · have h1' : l.find? p = some u := by rwa [List.find?_cons_of_neg _ hpa] at h1
      have hqa : ¬ q a = true := by
        intro hq
        rw [List.find?_cons_of_pos _ hq] at h2
        have hau : a = u := Option.some.inj h2
        rw [hau] at hpa
        exact hpa hpu
      have h2' : l.find? q = some u := by rwa [List.find?_cons_of_neg _ hqa] at h2
      have hpa' : p a = false := by simpa using hpa
      simp [replaceFirst, hpa', List.find?_cons_of_neg, hqa, ih h1' h2']

/-- Shape of a successful login: the record update, the roster write and the
session capture, all in one equation. -/
theorem login_ok (hash : String → String) (now : Nat) (s : Store) (u : User) (pw : String)
    (hfind : s.users.find? (fun x => x.username == u.username) = some u)
    (hpw : hash pw = u.passwordHash) :
    login hash now u.username pw s =
      .ok { store := { s with
              users := replaceFirst (fun x => x.username == u.username)
                         (loginUpdate now u) s.users,
              currentUser := some (loginUpdate now u) },
            user := loginUpdate now u,
            previousLogin := u.lastLogin } := by
  unfold login
  rw [hfind]
  simp [hpw]

/-- The usernames of a synthesized batch are exactly the usernames of its
raw entries, whatever ids were drawn. -/
theorem batchUsers_usernames (hash : String → String) (mkId : Nat → String) :
    ∀ (i : Nat) (entries : List RawEntry),
      (batchUsers hash mkId i entries).map User.username = entries.map RawEntry.username := by
  intro i entries
  induction entries generalizing i with
  | nil => rfl
  | cons e es ih => simp [batchUsers, mkBatchUser, ih]

/-- One registerBatch call preserves roster username uniqueness provided the
batch itself has pairwise distinct usernames. -/
theorem registerBatch_preserves_unique (hash : String → String) (mkId : Nat → String)
    (entries : List RawEntry) (s : Store)
    (hb : (entries.map RawEntry.username).Nodup)
    (hs : (s.users.map User.username).Nodup) :
    (((registerBatchUsers hash mkId entries s).1.users).map User.username).Nodup := by
  show ((s.users ++ (batchUsers hash mkId 0 entries).filter
          (fun nu => !(s.users.any (fun cu => cu.username == nu.username)))).map
            User.username).Nodup
  rw [List.map_append, List.nodup_append]
  refine ⟨hs, ?_, ?_⟩
  · have h1 : (((batchUsers hash mkId 0 entries).filter
        (fun nu => !(s.users.any (fun cu => cu.username == nu.username)))).map
          User.username).Sublist ((batchUsers hash mkId 0 entries).map User.username) :=
      List.Sublist.map _ (List.filter_sublist _)
    rw [batchUsers_usernames] at h1
    exact h1.nodup hb
  · intro a ha ha'
    simp only [List.mem_map] at ha ha'
    obtain ⟨cu, hcu, rfl⟩ := ha
    obtain ⟨nu, hnu, heq⟩ := ha'
    rw [List.mem_filter] at hnu
    have h2 := hnu.2
    simp only [Bool.not_eq_true', List.any_eq_false] at h2
    exact h2 cu hcu (by simp [heq])

/-- C1. The claim asserts that after any sequence of registerBatch calls the
roster never contains two users with the same username, duplicate-username
entries within a single batch being dropped. The code filters each new record
against the roster snapshot taken at call start only, never against the other
records of the same batch: a single batch with an internal duplicate inserts
both copies and counts both, so the claim fails. On the empty roster the batch
[{name A, username a}, {name B, username a}] yields a roster whose username
column is [a, a] and returns 2. -/
theorem claim_C1_counterexample :
    ((registerBatchUsers hid (fun i => toString i)
        [⟨"A", "a"⟩, ⟨"B", "a"⟩] emptyStore).1.users.map User.username) = ["a", "a"]
    ∧ ¬ (((registerBatchUsers hid (fun i => toString i)
        [⟨"A", "a"⟩, ⟨"B", "a"⟩] emptyStore).1.users.map User.username)).Nodup
    ∧ (registerBatchUsers hid (fun i => toString i)
        [⟨"A", "a"⟩, ⟨"B", "a"⟩] emptyStore).2 = 2 := by
  refine ⟨by decide, by decide, by decide⟩

/-- C1 (amended): a registerBatch call appends exactly the synthesized
records whose username does not collide with the roster snapshot taken at
call start and returns how many it appended; roster username uniqueness is
preserved across any sequence of registerBatch calls in which each single
batch has pairwise distinct usernames (without that proviso it can break, see
the counterexample). -/
theorem claim_C1_amended_registerBatch (hash : String → String) (mkId : Nat → String) :
    (∀ (entries : List RawEntry) (s : Store),
        (registerBatchUsers hash mkId entries s).1.users
          = s.users ++ (batchUsers hash mkId 0 entries).filter
              (fun nu => !(s.users.any (fun cu => cu.username == nu.username)))
        ∧ (registerBatchUsers hash mkId entries s).2
          = ((batchUsers hash mkId 0 entries).filter
              (fun nu => !(s.users.any (fun cu => cu.username == nu.username)))).length)
    ∧ (∀ (batches : List (List RawEntry)) (s : Store),
        (∀ b ∈ batches, (b.map RawEntry.username).Nodup) →
        ((s.users.map User.username)).Nodup →
        (((runRegisterBatches hash mkId batches s).users).map User.username).Nodup) := by
  refine ⟨fun entries s => ⟨rfl, rfl⟩, ?_⟩
  intro batches
  induction batches with
  | nil => intro s _ hs; exact hs
  | cons b bs ih =>
    intro s hball hs
    exact ih _ (fun x hx => hball x (List.mem_cons_of_mem _ hx))
      (registerBatch_preserves_unique hash mkId b s (hball b (List.mem_cons_self _ _)) hs)

/-- C1 witness: a duplicate-free two-entry batch on the empty roster inserts
both records and keeps the username column duplicate-free. -/
theorem claim_C1_witness :
    ((["a", "b"] : List String)).Nodup
    ∧ (((runRegisterBatches hid (fun i => toString i)
          [[⟨"A", "a"⟩, ⟨"B", "b"⟩]] emptyStore).users).map User.username).Nodup :=
  ⟨by decide,
   (claim_C1_amended_registerBatch hid (fun i => toString i)).2
     [[⟨"A", "a"⟩, ⟨"B", "b"⟩]] emptyStore (by decide) (by decide)⟩

/-- The store a successful login leaves behind: the roster with the found
record replaced by its update, and the session key set to that update. -/
def loginStoreAfter (now : Nat) (u : User) (s : Store) : Store :=
  { s with users := replaceFirst (fun x => x.username == u.username)
                      (loginUpdate now u) s.users,
           currentUser := some (loginUpdate now u) }

/-- C2 (confirmed). When the roster lookup by username finds u and the digest
of the supplied password matches, login returns previousLogin equal to the
stored pre-call lastLogin, persists a record whose loginCount is one above
the previous value (absent counting as 0) and whose lastLogin is the login
time, and getCurrentUser on the resulting store returns exactly that updated
record, which is also what the roster lookup now finds. -/
theorem claim_C2_login_correct (hash : String → String) (now : Nat) (s : Store)
    (u : User) (pw : String)
    (hfind : s.users.find? (fun x => x.username == u.username) = some u)
    (hpw : hash pw = u.passwordHash) :
    login hash now u.username pw s =
      .ok { store := loginStoreAfter now u s, user := loginUpdate now u,
            previousLogin := u.lastLogin }
    ∧ (loginUpdate now u).lastLogin = some now
    ∧ (loginUpdate now u).loginCount = some (u.loginCount.getD 0 + 1)
    ∧ getCurrentUser (loginStoreAfter now u s) = some (loginUpdate now u)
    ∧ (loginStoreAfter now u s).users.find? (fun x => x.username == u.username)
        = some (loginUpdate now u) := by
  refine ⟨login_ok hash now s u pw hfind hpw, rfl, rfl, rfl, ?_⟩
  exact find_replaceFirst_self _ _ (by simp [loginUpdate]) s.users u hfind

/-- C2 witness: the login of uC2 with the matching password at time 7. -/
theorem claim_C2_witness :
    (sC2.users.find? (fun x => x.username == uC2.username) = some uC2
      ∧ hid "pw" = uC2.passwordHash)
    ∧ login hid 7 uC2.username "pw" sC2 =
        .ok { store := loginStoreAfter 7 uC2 sC2, user := loginUpdate 7 uC2,
              previousLogin := uC2.lastLogin }
    ∧ getCurrentUser (loginStoreAfter 7 uC2 sC2) = some (loginUpdate 7 uC2) :=
  ⟨⟨by decide, by decide⟩,
   (claim_C2_login_correct hid 7 sC2 uC2 "pw" (by decide) (by decide)).1,
   (claim_C2_login_correct hid 7 sC2 uC2 "pw" (by decide) (by decide)).2.2.2.1⟩

/-- C3. The claim asserts the session identity is refreshed only when it
refers to the updated user and is otherwise left unchanged. The code sets the
session key to the updated record unconditionally: in sC3 the session refers
to uA3, yet updating the password of the different user uB3 leaves the
session pointing at the updated uB3 record. -/
theorem claim_C3_counterexample :
    getCurrentUser sC3 = some uA3
    ∧ uB3.id ≠ uA3.id
    ∧ (updatePassword hid uB3.id "newpw" sC3).toOption.map (fun r => getCurrentUser r.1)
        = some (some (pwUpdate hid "newpw" uB3))
    ∧ pwUpdate hid "newpw" uB3 ≠ uA3 := by
  refine ⟨by decide, by decide, by decide, by decide⟩

/-- C3 (amended): for an existing user id, updatePassword recomputes the
stored digest, clears isFirstLogin, persists the roster, and unconditionally
sets the current-session identity to the updated record — also when the
session referred to a different user or was absent; the mistake archives and
the last-session pointers are untouched. -/
theorem claim_C3_amended_updatePassword (hash : String → String) (uid pw : String)
    (s : Store) (u : User)
    (hfind : s.users.find? (fun x => x.id == uid) = some u) :
    updatePassword hash uid pw s =
      .ok ({ s with users := replaceFirst (fun x => x.id == uid) (pwUpdate hash pw u) s.users,
                    currentUser := some (pwUpdate hash pw u) },
           pwUpdate hash pw u)
    ∧ (pwUpdate hash pw u).passwordHash = hash pw
    ∧ (pwUpdate hash pw u).isFirstLogin = false
    ∧ (pwUpdate hash pw u).id = u.id
    ∧ ({ s with users := replaceFirst (fun x => x.id == uid) (pwUpdate hash pw u) s.users,
                currentUser := some (pwUpdate hash pw u) } : Store).data = s.data
    ∧ ({ s with users := replaceFirst (fun x => x.id == uid) (pwUpdate hash pw u) s.users,
                currentUser := some (pwUpdate hash pw u) } : Store).lastSessions
        = s.lastSessions := by
  refine ⟨?_, rfl, rfl, rfl, rfl, rfl⟩
  unfold updatePassword
  rw [hfind]

/-- C3 witness: updating the password of uB3 in sC3. -/
theorem claim_C3_witness :
    (sC3.users.find? (fun x => x.id == uB3.id) = some uB3)
    ∧ updatePassword hid uB3.id "newpw" sC3 =
        .ok ({ sC3 with
                users := replaceFirst (fun x => x.id == uB3.id) (pwUpdate hid "newpw" uB3) sC3.users,
                currentUser := some (pwUpdate hid "newpw" uB3) },
             pwUpdate hid "newpw" uB3)
    ∧ (pwUpdate hid "newpw" uB3).isFirstLogin = false :=
  ⟨by decide,
   (claim_C3_amended_updatePassword hid uB3.id "newpw" sC3 uB3 (by decide)).1,
   (claim_C3_amended_updatePassword hid uB3.id "newpw" sC3 uB3 (by decide)).2.2.1⟩

/-- C5. The claim asserts the overlay is shown exactly when the login
supplied a defined previousLogin value. The flag is raised only inside the
non-first-login student branch of handleLoginSuccess: an interactive coach
login that supplies a defined previousLogin (exCoach, previousLogin 5) still
leaves the overlay hidden, so the biconditional fails. -/
theorem claim_C5_counterexample :
    (handleLoginSuccess exCoach (some 5) emptyStore initialApp).showAchievements = false
    ∧ (some 5 : Option Nat).isSome = true := by
  refine ⟨by decide, by decide⟩

/-- C5 (amended): processing a successful login raises the achievement
overlay exactly when the login supplied a defined previousLogin value AND the
logged-in user is a non-first-login student (the flag is otherwise carried
over unchanged); in particular the silent session-resume at process start,
which supplies no previousLogin value, never shows the overlay. -/
theorem claim_C5_amended_overlay :
    (∀ (user : User) (prev : Option Nat) (s : Store) (app : AppModel),
        (handleLoginSuccess user prev s app).showAchievements
          = (app.showAchievements
             || (prev.isSome && !user.isFirstLogin && user.role == UserRole.student)))
    ∧ (∀ (user : User) (s : Store),
        (handleLoginSuccess user none s initialApp).showAchievements = false) := by
  have key : ∀ (user : User) (prev : Option Nat) (s : Store) (app : AppModel),
      (handleLoginSuccess user prev s app).showAchievements
        = (app.showAchievements
           || (prev.isSome && !user.isFirstLogin && user.role == UserRole.student)) := by
    intro user prev s app
    unfold handleLoginSuccess
    cases hf : user.isFirstLogin <;> cases hr : user.role <;> cases prev <;>
      simp [hf, hr] <;>
      cases hls : getLastSession user.id s <;> simp [hls]
  exact ⟨key, fun user s => by rw [key]; rfl⟩

/-- C7 (confirmed). Selecting the random-choice entry of the 8-entry topic
catalog resolves, at selection time, to TOPICS[r] for the draw
r < TOPICS.length - 1; the generated Problem installed as the current problem
carries exactly the resolved topic (also on provider failure); every resolved
topic is a concrete catalog entry different from the random-choice label; and
the draw-to-topic map lists exactly the 7 concrete entries in order, each hit
by exactly one draw, so a uniform draw yields a uniform concrete topic. -/
theorem claim_C7_random_topic :
    (∀ (r : Fin (TOPICS.length - 1)) (now : Nat) (provider : Option ProviderOutput)
        (app : AppModel),
        (handleTopicSelect r now provider randomTopicLabel app).currentProblem
          = some (generateMathProblem now provider (resolveTopic r randomTopicLabel))
        ∧ (handleTopicSelect r now provider randomTopicLabel app).appState = .problemActive)
    ∧ (∀ (now : Nat) (provider : Option ProviderOutput) (topic : String),
        (generateMathProblem now provider topic).topic = topic)
    ∧ (∀ r : Fin (TOPICS.length - 1),
        resolveTopic r randomTopicLabel ∈ TOPICS
        ∧ resolveTopic r randomTopicLabel ≠ randomTopicLabel)
    ∧ List.ofFn (fun r : Fin (TOPICS.length - 1) => resolveTopic r randomTopicLabel)
        = TOPICS.take (TOPICS.length - 1)
    ∧ (TOPICS.take (TOPICS.length - 1)).Nodup := by
  refine ⟨fun r now provider app => ⟨rfl, rfl⟩, ?_, by decide, by decide, by decide⟩
  intro now provider topic
  cases provider <;> rfl

/-- C8 (confirmed). The badge catalog's predicates are monotone in the saved
count, the login count and the distinct-topic count, so the unlocked set at a
componentwise smaller input is a subset of the unlocked set at the larger. -/
theorem claim_C8_badge_monotone (c1 c2 l1 l2 t1 t2 : Nat)
    (hc : c1 ≤ c2) (hl : l1 ≤ l2) (ht : t1 ≤ t2) :
    unlockedBadges c1 l1 t1 ⊆ unlockedBadges c2 l2 t2 := by
  intro b hb
  rw [unlockedBadges, List.mem_filter] at hb ⊢
  refine ⟨hb.1, ?_⟩
  have hbmem := hb.1
  have hcond := hb.2
  simp only [BADGES, List.mem_cons, List.not_mem_nil, or_false] at hbmem
  rcases hbmem with h | h | h | h | h <;> subst h <;>
    simp only [decide_eq_true_eq] at hcond ⊢ <;> omega

/-- C8 witness: the badge set at (1, 1, 1) is inside the one at (5, 2, 3). -/
theorem claim_C8_witness :
    (1 ≤ 5 ∧ 1 ≤ 2 ∧ 1 ≤ 3)
    ∧ unlockedBadges 1 1 1 ⊆ unlockedBadges 5 2 3 :=
  ⟨⟨by decide, by decide, by decide⟩,
   claim_C8_badge_monotone 1 5 1 2 1 3 (by decide) (by decide) (by decide)⟩

/-- The store a password reset leaves behind. -/
def afterReset (hash : String → String) (u : User) (s : Store) : Store :=
  { s with users := replaceFirst (fun x => x.id == u.id) (resetUpdate hash u) s.users }

/-- C9 (confirmed). For a roster on which both lookups (by id and by
username) find u first, resetting the password of u.id and then logging in
with (u.username, u.username) succeeds — the stored digest is the digest of
the username — and the logged-in record carries isFirstLogin = true. -/
theorem claim_C9_reset_then_login (hash : String → String) (now : Nat) (s : Store) (u : User)
    (hbyid : s.users.find? (fun x => x.id == u.id) = some u)
    (hbyname : s.users.find? (fun x => x.username == u.username) = some u) :
    resetUserPasswordToUsername hash u.id s = .ok (afterReset hash u s)
    ∧ login hash now u.username u.username (afterReset hash u s) =
        .ok { store := loginStoreAfter now (resetUpdate hash u) (afterReset hash u s),
              user := loginUpdate now (resetUpdate hash u),
              previousLogin := (resetUpdate hash u).lastLogin }
    ∧ (loginUpdate now (resetUpdate hash u)).isFirstLogin = true := by
  refine ⟨?_, ?_, rfl⟩
  · unfold resetUserPasswordToUsername
    rw [hbyid]
    rfl
  · have hfind : (afterReset hash u s).users.find?
        (fun x => x.username == u.username) = some (resetUpdate hash u) :=
      find_replaceFirst_cross (fun x => x.id == u.id) (fun x => x.username == u.username)
        u (resetUpdate hash u) (by simp [resetUpdate]) (by simp)
        s.users hbyid hbyname
    exact login_ok hash now (afterReset hash u s) (resetUpdate hash u) u.username hfind rfl

/-- C9 witness: resetting uC9 in sC9 and logging back in as
(stud9, stud9) at time 7. -/
theorem claim_C9_witness :
    (sC9.users.find? (fun x => x.id == uC9.id) = some uC9
      ∧ sC9.users.find? (fun x => x.username == uC9.username) = some uC9)
    ∧ resetUserPasswordToUsername hid uC9.id sC9 = .ok (afterReset hid uC9 sC9)
    ∧ (loginUpdate 7 (resetUpdate hid uC9)).isFirstLogin = true :=
  ⟨⟨by decide, by decide⟩,
   (claim_C9_reset_then_login hid 7 sC9 uC9 (by decide) (by decide)).1,
   (claim_C9_reset_then_login hid 7 sC9 uC9 (by decide) (by decide)).2.2⟩

/-- C10 (confirmed). A successful password reset writes only the user roster:
the session identity, the mistake archives and the last-session pointers of
the resulting store equal those of the input store, so getCurrentUser keeps
returning the pre-reset record even when the reset user is the logged-in
one. -/
theorem claim_C10_reset_frame (hash : String → String) (uid : String) (s s' : Store)
    (h : resetUserPasswordToUsername hash uid s = .ok s') :
    s'.currentUser = s.currentUser ∧ s'.data = s.data
    ∧ s'.lastSessions = s.lastSessions
    ∧ getCurrentUser s' = getCurrentUser s := by
  unfold resetUserPasswordToUsername at h
  cases hf : s.users.find? (fun x => x.id == uid) with
  | none => rw [hf] at h; exact absurd h (by simp)
  | some user =>
    rw [hf] at h
    injection h with h'
    subst h'
    exact ⟨rfl, rfl, rfl, rfl⟩

/-- C10 witness: resetting uC10, the user whose session is active in sC10,
leaves the session identity (and the other collections) untouched. -/
theorem claim_C10_witness :
    resetUserPasswordToUsername hid uC10.id sC10 = .ok sC10res
    ∧ (sC10res.currentUser = sC10.currentUser ∧ sC10res.data = sC10.data
       ∧ sC10res.lastSessions = sC10.lastSessions
       ∧ getCurrentUser sC10res = getCurrentUser sC10) :=
  ⟨by rfl, claim_C10_reset_frame hid uC10.id sC10 sC10res (by rfl)⟩

/-- Filtering an archive keeps its ids duplicate-free. -/
theorem mistakeIdsNodup_filter (f : Problem → Bool) (l : List Problem)
    (h : mistakeIdsNodup l) : mistakeIdsNodup (l.filter f) :=
  (List.Sublist.map Problem.id (List.filter_sublist l)).nodup h

/-- Prepending a timestamped copy of a problem whose id is absent keeps the
ids duplicate-free. -/
theorem mistakeIdsNodup_insert (now : Nat) (p : Problem) (l : List Problem)
    (hany : l.any (fun m => m.id == p.id) = false) (h : mistakeIdsNodup l) :
    mistakeIdsNodup ({ p with timestamp := some now } :: l) := by
  rw [mistakeIdsNodup, List.map_cons, List.nodup_cons]
  refine ⟨?_, h⟩
  intro hmem
  rw [List.mem_map] at hmem
  obtain ⟨m, hm, hid'⟩ := hmem
  rw [List.any_eq_false] at hany
  exact hany m hm (by simp [hid'])

/-- The id-preserving archive rewrite of handleChatUpdate leaves the id
column unchanged. -/
theorem map_ids_chatUpdate (q : Problem) :
    ∀ l : List Problem,
      (l.map (fun m => if m.id == q.id then q else m)).map Problem.id
        = l.map Problem.id := by
  intro l
  induction l with
  | nil => rfl
  | cons a l ih =>
    simp only [List.map_cons, ih]
    by_cases h : a.id == q.id
    · have ha : a.id = q.id := by simpa using h
      simp [h, ha]
    · simp [h]

/-- saveCurrentProblem writes only the activeMistakes field. -/
theorem saveCurrentProblem_frame (now : Nat) (app : AppModel) :
    (saveCurrentProblem now app).appState = app.appState
    ∧ (saveCurrentProblem now app).currentProblem = app.currentProblem
    ∧ (saveCurrentProblem now app).currentUser = app.currentUser := by
  unfold saveCurrentProblem
  split
  · exact ⟨rfl, rfl, rfl⟩
  · split
    · split
      · exact ⟨rfl, rfl, rfl⟩
      · exact ⟨rfl, rfl, rfl⟩
    · exact ⟨rfl, rfl, rfl⟩

/-- saveCurrentProblem is the identity once the active problem is already
archived. -/
theorem saveCurrentProblem_idem (now : Nat) (app : AppModel) (p : Problem)
    (hp : app.currentProblem = some p)
    (hany : app.activeMistakes.any (fun m => m.id == p.id) = true) :
    saveCurrentProblem now app = app := by
  unfold saveCurrentProblem
  simp only [hp]
  simp [hany]

/-- No submission re-archives a problem whose id is already present. -/
theorem handleSubmit_no_rearchive (proc : Bool) (now : Nat) (input : String)
    (att : Bool) (app : AppModel) (p : Problem)
    (hp : app.currentProblem = some p)
    (hany : app.activeMistakes.any (fun m => m.id == p.id) = true) :
    (handleSubmitMistakes proc now input att app).activeMistakes = app.activeMistakes := by
  unfold handleSubmitMistakes
  split
  · rfl
  · split
    · rw [saveCurrentProblem_idem now app p hp hany]
    · rfl

/-- C4. The claim asserts the archive trigger fires whenever the submitted
free-text input contains a giving-up keyword. The source runs the keyword
check only when the submission carries no attachment: submitting the keyword
text 不会 together with an attachment passes the guard yet archives
nothing. -/
theorem claim_C4_counterexample :
    keywordHit "不会" = true
    ∧ exApp.currentProblem = some exProblem
    ∧ (handleSubmitMistakes false 10 "不会" true exApp).activeMistakes = [] := by
  refine ⟨by decide, by decide, by decide⟩

/-- C4 (amended): during an active problem, a student's attachment-free
submission whose text contains a giving-up keyword archives the current
problem (its id is in the mistake list afterwards), leaves the navigation
state and the current problem unchanged, and is idempotent: any further
submission leaves the mistake list exactly as it is. -/
theorem claim_C4_amended_autosave (now : Nat) (input : String) (app : AppModel)
    (u : User) (p : Problem)
    (hu : app.currentUser = some u) (hrole : u.role = UserRole.student)
    (hp : app.currentProblem = some p)
    (hkw : keywordHit input = true) (hne : blankInput input = false) :
    ((handleSubmitMistakes false now input false app).activeMistakes.any
        (fun m => m.id == p.id)) = true
    ∧ (handleSubmitMistakes false now input false app).appState = app.appState
    ∧ (handleSubmitMistakes false now input false app).currentProblem = app.currentProblem
    ∧ (∀ (proc2 : Bool) (now2 : Nat) (input2 : String) (att2 : Bool),
        (handleSubmitMistakes proc2 now2 input2 att2
            (handleSubmitMistakes false now input false app)).activeMistakes
          = (handleSubmitMistakes false now input false app).activeMistakes) := by
  have happ : handleSubmitMistakes false now input false app = saveCurrentProblem now app := by
    unfold handleSubmitMistakes autoSaveTriggered
    simp [hne, hkw]
  have hrs : roleIsStudent app = true := by simp [roleIsStudent, hu, hrole]
  have hmain : ((handleSubmitMistakes false now input false app).activeMistakes.any
      (fun m => m.id == p.id)) = true := by
    rw [happ]
    unfold saveCurrentProblem
    simp only [hp]
    by_cases hany : app.activeMistakes.any (fun m => m.id == p.id) = true
    · simp [hany]
    · simp [hrs, hany]
  refine ⟨hmain, ?_, ?_, ?_⟩
  · rw [happ]
    exact (saveCurrentProblem_frame now app).1
  · rw [happ]
    exact (saveCurrentProblem_frame now app).2.1
  · intro proc2 now2 input2 att2
    apply handleSubmit_no_rearchive proc2 now2 input2 att2 _ p
    · rw [happ, (saveCurrentProblem_frame now app).2.1]
      exact hp
    · exact hmain

/-- C4 witness: the student of exApp submitting the bare text 不会. -/
theorem claim_C4_witness :
    (exApp.currentUser = some exStudent ∧ exStudent.role = UserRole.student
      ∧ exApp.currentProblem = some exProblem
      ∧ keywordHit "不会" = true ∧ blankInput "不会" = false)
    ∧ ((handleSubmitMistakes false 10 "不会" false exApp).activeMistakes.any
        (fun m => m.id == exProblem.id)) = true
    ∧ (handleSubmitMistakes false 10 "不会" false exApp).appState = exApp.appState :=
  ⟨⟨rfl, rfl, rfl, by decide, by decide⟩,
   (claim_C4_amended_autosave 10 "不会" exApp exStudent exProblem rfl rfl rfl
      (by decide) (by decide)).1,
   (claim_C4_amended_autosave 10 "不会" exApp exStudent exProblem rfl rfl rfl
      (by decide) (by decide)).2.1⟩

/-- C6 (confirmed). Every archive-modifying operation preserves at-most-one
entry per Problem id: toggling preserves it (and, on a problem whose id is
present, removes every entry with that id instead of inserting a copy), the
explicit save path inserts no duplicate, the notebook delete preserves it,
and the chat-propagation rewrite leaves the id column unchanged. -/
theorem claim_C6_archive_nodup :
    (∀ (now : Nat) (app : AppModel), mistakeIdsNodup app.activeMistakes →
        mistakeIdsNodup (toggleMistake now app).activeMistakes)
    ∧ (∀ (now : Nat) (app : AppModel), mistakeIdsNodup app.activeMistakes →
        mistakeIdsNodup (saveCurrentProblem now app).activeMistakes)
    ∧ (∀ (pid : String) (app : AppModel), mistakeIdsNodup app.activeMistakes →
        mistakeIdsNodup (deleteMistake pid app).activeMistakes)
    ∧ (∀ (messages : List Message) (app : AppModel),
        (handleChatUpdate messages app).activeMistakes.map Problem.id
          = app.activeMistakes.map Problem.id)
    ∧ (∀ (now : Nat) (app : AppModel) (p : Problem),
        app.currentProblem = some p → roleIsStudent app = true →
        app.activeMistakes.any (fun m => m.id == p.id) = true →
        (toggleMistake now app).activeMistakes
          = app.activeMistakes.filter (fun m => !(m.id == p.id))) := by
  refine ⟨?_, ?_, ?_, ?_, ?_⟩
  · intro now app h
    unfold toggleMistake
    split
    · exact h
    · next p _ =>
      split
      · split
        · exact mistakeIdsNodup_filter _ _ h
        · next hany => exact mistakeIdsNodup_insert now p _ (by simpa using hany) h
      · exact h
  · intro now app h
    unfold saveCurrentProblem
    split
    · exact h
    · next p _ =>
      split
      · split
        · exact h
        · next hany => exact mistakeIdsNodup_insert now p _ (by simpa using hany) h
      · exact h
  · intro pid app h
    exact mistakeIdsNodup_filter _ _ h
  · intro messages app
    unfold handleChatUpdate
    split
    · rfl
    · next p _ =>
      dsimp only
      split
      · exact map_ids_chatUpdate { p with chatHistory := some messages } app.activeMistakes
      · rfl
  · intro now app p hp hrs hany
    unfold toggleMistake
    simp only [hp]
    simp [hrs, hany]

/-- C6 witness: toggling the active problem of exApp into its empty (hence
duplicate-free) archive keeps the id column duplicate-free. -/
theorem claim_C6_witness :
    mistakeIdsNodup exApp.activeMistakes
    ∧ mistakeIdsNodup (toggleMistake 5 exApp).activeMistakes :=
  ⟨by decide, claim_C6_archive_nodup.1 5 exApp (by decide)⟩

end FM
